import Mathlib

/-!
Shallow embedding of the core of the `iot-mqtt-water-monitoring-app`
repository: the dashboard screen's MQTT/sync logic
(`app/(tabs)/index.tsx`), the MQTT configuration store (`config/mqtt.ts`),
the Firestore statistics helper (`services/firestore.ts`), and the
connection manager described by the specification and by
`MQTT_FIX_SUMMARY.md`.

JavaScript numbers that carry sensor values are embedded as rationals
(`ℚ`); millisecond timestamps are embedded as integers (`Int`), matching
the integral values produced by `Date.now()`.
-/

/-- Sensor values carried by one decoded MQTT payload: the `SensorData`
interface of `app/(tabs)/index.tsx` and `services/firestore.ts`. -/
structure SensorData where
  temp : ℚ
  humidity : ℚ
  ph : ℚ
  nitrate : ℚ
  turbidity : ℚ
  level : ℚ
  status : String
deriving Repr, DecidableEq

/-- The three values of the trend indicator returned by `getTrend`. -/
inductive Trend where
  | up
  | down
  | stable
deriving Repr, DecidableEq

/-- `getTrend` from `app/(tabs)/index.tsx` (identical in both revisions).
The JavaScript guard `if (!previous) return 'stable'` is truthy-based:
it fires both when `previous` is `undefined` (embedded as `none`) and
when `previous` is the number `0`. -/
def getTrend (current : ℚ) (previous : Option ℚ) : Trend :=
  match previous with
  | none => Trend.stable
  | some p =>
    if p = 0 then Trend.stable
    else if current > p + 1/10 then Trend.up
    else if current < p - 1/10 then Trend.down
    else Trend.stable

/-- Throttle interval `FIREBASE_SAVE_INTERVAL` from
`app/(tabs)/index.tsx` (revision 1): save to Firebase every 30 seconds. -/
def FIREBASE_SAVE_INTERVAL : Int := 30000

/-- State of `HomeScreen` (revision 1 of `app/(tabs)/index.tsx`) that the
connection and sync logic touches.  `lastSaveTime` is the ref initialised
to `0`; `createCalls` records, oldest first, every reading passed to the
repository's `saveSensorReading` (the externally observable create
calls). -/
structure HomeState where
  connectionStatus : String
  firebaseStatus : String
  lastSyncTime : Option Int
  readingCount : Nat
  sensorData : SensorData
  previousData : Option SensorData
  lastSaveTime : Int
  createCalls : List SensorData
deriving Repr, DecidableEq

/-- `useState` initial value of `sensorData` in `HomeScreen`. -/
def initialSensorData : SensorData :=
  { temp := 0, humidity := 0, ph := 7, nitrate := 0, turbidity := 0,
    level := 100, status := "Waiting for data..." }

/-- Initial `HomeScreen` state: the `useState` initial values and the
refs' initial values (`lastSaveTime.current = 0`). -/
def initialHomeState : HomeState :=
  { connectionStatus := "Disconnected", firebaseStatus := "Not synced",
    lastSyncTime := none, readingCount := 0,
    sensorData := initialSensorData, previousData := none,
    lastSaveTime := 0, createCalls := [] }

/-- `saveToFirebase` from revision 1 of `app/(tabs)/index.tsx`.  `now` is
`Date.now()` at the call; `saveSucceeds` tells whether the awaited
`saveSensorReading` call resolves or rejects.  If less than
`FIREBASE_SAVE_INTERVAL` ms have passed since `lastSaveTime`, the
function returns without calling the repository.  Otherwise
`saveSensorReading` is called; on success `lastSaveTime`, `lastSyncTime`,
`firebaseStatus` and `readingCount` are updated, on failure only
`firebaseStatus` is set (the `lastSaveTime.current = now` assignment is
skipped because the `await` threw first). -/
def saveToFirebase (s : HomeState) (data : SensorData) (now : Int)
    (saveSucceeds : Bool) : HomeState :=
  if now - s.lastSaveTime < FIREBASE_SAVE_INTERVAL then s
  else
    let s1 := { s with createCalls := s.createCalls ++ [data] }
    if saveSucceeds then
      { s1 with lastSaveTime := now, lastSyncTime := some now,
                firebaseStatus := "Synced ✓",
                readingCount := s1.readingCount + 1 }
    else
      { s1 with firebaseStatus := "Sync failed" }

/-- `onMessageArrived` from revision 1 of `app/(tabs)/index.tsx`.
`decode` embeds `JSON.parse` on the payload string (`none` when the
parse throws, in which case the `catch` only logs).  On a decodable
payload the screen stores the previous reading, displays the new one,
and calls `saveToFirebase` with throttling. -/
def onMessageArrived (decode : String → Option SensorData) (s : HomeState)
    (payload : String) (now : Int) (saveSucceeds : Bool) : HomeState :=
  match decode payload with
  | none => s
  | some jsonPayload =>
    let s1 := { s with previousData := some s.sensorData,
                       sensorData := jsonPayload }
    saveToFirebase s1 jsonPayload now saveSucceeds

/-- `onConnectionLost` from `app/(tabs)/index.tsx` (identical in both
revisions): the status changes to `Lost Connection` only when the
response object carries a non-zero error code. -/
def onConnectionLost (s : HomeState) (errorCode : Int) : HomeState :=
  if errorCode ≠ 0 then { s with connectionStatus := "Lost Connection" }
  else s

/-- `MQTTConfig` from `config/mqtt.ts`. -/
structure MQTTConfig where
  broker : String
  port : Nat
  topic : String
  useSSL : Bool
deriving Repr, DecidableEq

/-- `DEFAULT_MQTT_CONFIG` from `config/mqtt.ts`. -/
def DEFAULT_MQTT_CONFIG : MQTTConfig :=
  { broker := "broker.hivemq.com", port := 8000,
    topic := "semester_project/water_quality", useSSL := false }

/-- `loadMQTTConfig` from `config/mqtt.ts`.  `getItem` embeds the result
of awaiting `AsyncStorage.getItem(STORAGE_KEY)`: `Except.error` when the
read throws, `Except.ok none` when the key is absent (`null`), otherwise
the stored string.  `jsonParse` embeds `JSON.parse` followed by the
implicit cast to `MQTTConfig` (`none` when the parse throws; the `catch`
then returns the default).  The JavaScript guard `if (stored)` is
truthy-based, so an empty stored string also falls through to the
default.  The function is total: it never raises to its caller. -/
def loadMQTTConfig (getItem : Except Unit (Option String))
    (jsonParse : String → Option MQTTConfig) : MQTTConfig :=
  match getItem with
  | Except.error _ => DEFAULT_MQTT_CONFIG
  | Except.ok none => DEFAULT_MQTT_CONFIG
  | Except.ok (some stored) =>
    if stored = "" then DEFAULT_MQTT_CONFIG
    else
      match jsonParse stored with
      | some cfg => cfg
      | none => DEFAULT_MQTT_CONFIG

/-- `saveMQTTConfig` from `config/mqtt.ts`.  The storage is modelled as
the content of the single key `@mqtt_config` (`none` = absent);
`jsonStringify` embeds `JSON.stringify`; `writeFails` tells whether
`AsyncStorage.setItem` rejects.  On failure the error is rethrown to the
caller (`Except.error`), on success the new storage content is
returned. -/
def saveMQTTConfig (jsonStringify : MQTTConfig → String) (writeFails : Bool)
    (config : MQTTConfig) : Except Unit (Option String) :=
  if writeFails then Except.error ()
  else Except.ok (some (jsonStringify config))

/-- Demonstration serializer standing for `JSON.stringify` on an
`MQTTConfig` value, producing the JSON document the browser runtime
would produce for the default configuration. -/
def demoStringify (c : MQTTConfig) : String :=
  String.join ["\x7b\"broker\":\"", c.broker, "\",\"port\":", toString c.port,
    ",\"topic\":\"", c.topic, "\",\"useSSL\":",
    if c.useSSL then "true" else "false", "\x7d"]

/-- Demonstration parser standing for `JSON.parse`: it recognises the
document produced by `demoStringify` for the default configuration. -/
def demoParse (s : String) : Option MQTTConfig :=
  if s = demoStringify DEFAULT_MQTT_CONFIG then some DEFAULT_MQTT_CONFIG
  else none

/-- Per-field accumulator of `getDailyStats` in `services/firestore.ts`:
`min` starts at `Infinity` and `max` at `-Infinity`, embedded as `none`
(every finite value beats the sentinel); `avg` and `total` start at 0. -/
structure FieldStat where
  min : Option ℚ
  max : Option ℚ
  avg : ℚ
  total : ℚ
deriving Repr, DecidableEq

/-- Initial per-field accumulator of `getDailyStats`. -/
def initFieldStat : FieldStat :=
  { min := none, max := none, avg := 0, total := 0 }

/-- One reading's contribution to one field of the `getDailyStats`
accumulator: `if (value < min) min = value; if (value > max) max =
value; total += value`, with `none` standing for the `±Infinity`
sentinel. -/
def updField (st : FieldStat) (value : ℚ) : FieldStat :=
  { min :=
      match st.min with
      | none => some value
      | some m => if value < m then some value else some m,
    max :=
      match st.max with
      | none => some value
      | some m => if value > m then some value else some m,
    avg := st.avg,
    total := st.total + value }

/-- The six per-field accumulators of `getDailyStats`, one per key of
its `stats` object. -/
structure DailyFieldStats where
  temp : FieldStat
  humidity : FieldStat
  ph : FieldStat
  nitrate : FieldStat
  turbidity : FieldStat
  level : FieldStat
deriving Repr, DecidableEq

/-- Initial `stats` object of `getDailyStats`. -/
def initDailyFieldStats : DailyFieldStats :=
  { temp := initFieldStat, humidity := initFieldStat, ph := initFieldStat,
    nitrate := initFieldStat, turbidity := initFieldStat,
    level := initFieldStat }

/-- One iteration of the `readings.forEach` loop in `getDailyStats`:
each of the six keys is updated with the reading's value for that key. -/
def updAllFields (st : DailyFieldStats) (r : SensorData) : DailyFieldStats :=
  { temp := updField st.temp r.temp,
    humidity := updField st.humidity r.humidity,
    ph := updField st.ph r.ph,
    nitrate := updField st.nitrate r.nitrate,
    turbidity := updField st.turbidity r.turbidity,
    level := updField st.level r.level }

/-- `Math.round(q * 100) / 100` on a rational: JavaScript `Math.round`
rounds half towards positive infinity, i.e. `⌊x + 1/2⌋`. -/
def roundTo2 (q : ℚ) : ℚ := ((⌊q * 100 + 1/2⌋ : ℤ) : ℚ) / 100

/-- The `stats[key].avg = Math.round((stats[key].total / readings.length)
* 100) / 100` step of `getDailyStats`. -/
def setAvg (st : FieldStat) (n : Nat) : FieldStat :=
  { st with avg := roundTo2 (st.total / (n : ℚ)) }

/-- Return value of `getDailyStats` when the last-24-hours query is
non-empty. -/
structure DailyStatsResult where
  stats : DailyFieldStats
  readingCount : Nat
  period : String
deriving Repr, DecidableEq

/-- `getDailyStats` from `services/firestore.ts`, parameterised by the
list of readings returned by `getReadingsFromLastHours(24)` (an external
Firestore query).  Returns `none` (`null`) on an empty list; otherwise
folds the six per-field accumulators over the readings, fills in the
rounded averages, and reports the reading count and period. -/
def getDailyStats (readings : List SensorData) : Option DailyStatsResult :=
  if readings.isEmpty then none
  else
    let folded := readings.foldl updAllFields initDailyFieldStats
    let n := readings.length
    some { stats :=
             { temp := setAvg folded.temp n,
               humidity := setAvg folded.humidity n,
               ph := setAvg folded.ph n,
               nitrate := setAvg folded.nitrate n,
               turbidity := setAvg folded.turbidity n,
               level := setAvg folded.level n },
           readingCount := n, period := "24h" }

/-- Modelled from the spec: connection states of the Connection Manager
(spec §3/§4.1).  The reconnect-with-backoff implementation that
`MQTT_FIX_SUMMARY.md` documents for `app/(tabs)/index.tsx` is not among
the shipped source revisions, so the manager is embedded from the
specification's state machine. -/
inductive ConnState where
  | disconnected
  | connecting
  | connected
  | lost
  | reconnecting (attempt : Nat) (delayMs : Nat)
  | failed
deriving Repr, DecidableEq

/-- Modelled from the spec: default base delay of the backoff policy
(`BASE_RECONNECT_DELAY`, 2000 ms). -/
def BASE_RECONNECT_DELAY : Nat := 2000

/-- Modelled from the spec: cap on the backoff delay (60000 ms). -/
def CAP_RECONNECT_DELAY : Nat := 60000

/-- Modelled from the spec: maximum number of reconnect attempts
(`MAX_RECONNECT_ATTEMPTS`, 10). -/
def MAX_RECONNECT_ATTEMPTS : Nat := 10

/-- Modelled from the spec: backoff delay before retry attempt
`attempt`, `min(baseDelay * 2 ^ (attempt - 1), capDelay)`. -/
def backoffDelay (attempt : Nat) : Nat :=
  min (BASE_RECONNECT_DELAY * 2 ^ (attempt - 1)) CAP_RECONNECT_DELAY

/-- Modelled from the spec: manager state.  `reconnectAttempts` counts
the retries scheduled since the last successful connection; `stopped`
is the staleness mark set by `stop` (spec §5); `pendingTimer` holds the
delay of the scheduled reconnect timer, if any. -/
structure Manager where
  conn : ConnState
  reconnectAttempts : Nat
  stopped : Bool
  pendingTimer : Option Nat
deriving Repr, DecidableEq

/-- Modelled from the spec: the discrete events the manager reacts to
(spec §4.1/§5): `start`, handshake success, connect failure, connection
loss with an error code, the reconnect timer firing, and an inbound
message. -/
inductive MEvent where
  | start
  | connectSuccess
  | connectFailure
  | connectionLost (errorCode : Int)
  | timerFired
  | messageArrived (payload : String)
deriving Repr, DecidableEq

/-- Modelled from the spec: the callbacks a step may fire —
`onStateChange` with the new state, or `onMessage` with a payload. -/
inductive MOutput where
  | stateChange (s : ConnState)
  | message (payload : String)
deriving Repr, DecidableEq

/-- Modelled from the spec: `handleFailure`/`handleLoss` retry budget
(spec §4.1): a failure with `reconnectAttempts ≥ maxAttempts` moves to
`Failed` and schedules nothing; otherwise retry `attempts + 1` is
scheduled with its backoff delay and the state becomes
`Reconnecting(attempt, delay)`. -/
def scheduleRetry (m : Manager) : Manager × List MOutput :=
  if m.reconnectAttempts ≥ MAX_RECONNECT_ATTEMPTS then
    ({ m with conn := ConnState.failed, pendingTimer := none },
     [MOutput.stateChange ConnState.failed])
  else
    let a := m.reconnectAttempts + 1
    let d := backoffDelay a
    ({ m with conn := ConnState.reconnecting a d, reconnectAttempts := a,
              pendingTimer := some d },
     [MOutput.stateChange (ConnState.reconnecting a d)])

/-- Modelled from the spec: one event step of the Connection Manager.
A stopped (stale) manager ignores every event except `start`; `Failed`
is terminal until `start` is called again; a re-entrant `start` while
`Connecting` is a no-op; a connection-lost callback acts only on a
non-zero error code; the reconnect timer moves `Reconnecting` to
`Connecting`; messages are delivered only while `Connected`. -/
def step (m : Manager) (e : MEvent) : Manager × List MOutput :=
  if m.stopped ∧ e ≠ MEvent.start then (m, [])
  else if m.conn = ConnState.failed ∧ e ≠ MEvent.start then (m, [])
  else
    match e with
    | MEvent.start =>
      if m.conn = ConnState.connecting ∧ m.stopped = false then (m, [])
      else
        ({ conn := ConnState.connecting, reconnectAttempts := 0,
           stopped := false, pendingTimer := none },
         [MOutput.stateChange ConnState.connecting])
    | MEvent.connectSuccess =>
      ({ m with conn := ConnState.connected, reconnectAttempts := 0 },
       [MOutput.stateChange ConnState.connected])
    | MEvent.connectFailure => scheduleRetry m
    | MEvent.connectionLost code =>
      if code ≠ 0 then
        let r := scheduleRetry { m with conn := ConnState.lost }
        (r.1, MOutput.stateChange ConnState.lost :: r.2)
      else (m, [])
    | MEvent.timerFired =>
      match m.pendingTimer with
      | some _ =>
        ({ m with conn := ConnState.connecting, pendingTimer := none },
         [MOutput.stateChange ConnState.connecting])
      | none => (m, [])
    | MEvent.messageArrived p =>
      if m.conn = ConnState.connected then (m, [MOutput.message p])
      else (m, [])

/-- Modelled from the spec: `stop()` synchronously cancels any pending
reconnect timer, marks the manager stale, and moves any state to
`Disconnected` (spec §4.1/§5). -/
def stopManager (m : Manager) : Manager :=
  { m with stopped := true, pendingTimer := none,
           conn := ConnState.disconnected }

/-- Modelled from the spec: run a list of events through the manager,
collecting all fired callbacks in order. -/
def runEvents (m : Manager) : List MEvent → Manager × List MOutput
  | [] => (m, [])
  | e :: es =>
    let r1 := step m e
    let r2 := runEvents r1.1 es
    (r2.1, r1.2 ++ r2.2)

/-- Modelled from the spec: the manager before `start` is called. -/
def initialManager : Manager :=
  { conn := ConnState.disconnected, reconnectAttempts := 0,
    stopped := false, pendingTimer := none }

/-- Modelled from the spec: the event trace in which `start` is called
and every connection attempt fails — the initial attempt fails, and
then each of `n` scheduled retries fires its timer and fails in turn. -/
def failureEvents (n : Nat) : List MEvent :=
  MEvent.start :: MEvent.connectFailure ::
    (List.replicate n [MEvent.timerFired, MEvent.connectFailure]).flatten

/-- Delays carried by the `Reconnecting` state changes of an output
trace: the scheduled reconnect delays, in order. -/
def retryDelays (outs : List MOutput) : List Nat :=
  outs.filterMap fun o =>
    match o with
    | MOutput.stateChange (ConnState.reconnecting _ d) => some d
    | _ => none

/-- Concrete reading used by counterexamples and witnesses. -/
def demoReading1 : SensorData :=
  { temp := 21, humidity := 60, ph := 7, nitrate := 10,
    turbidity := 5, level := 80, status := "Normal" }

/-- Second concrete reading used by counterexamples and witnesses. -/
def demoReading2 : SensorData :=
  { temp := 22, humidity := 61, ph := 8, nitrate := 11,
    turbidity := 6, level := 79, status := "Normal" }

/-- C5: the connection-lost handler moves the connection status to
`Lost Connection` exactly when the delivered error code is non-zero; a
connection-lost callback with error code 0 leaves the screen state
entirely unchanged. -/
theorem connectionLostGuard_spec (s : HomeState) (errorCode : Int) :
    (errorCode ≠ 0 →
      onConnectionLost s errorCode
        = { s with connectionStatus := "Lost Connection" }) ∧
    (errorCode = 0 → onConnectionLost s errorCode = s) := by
  constructor
  · intro h
    simp [onConnectionLost, h]
  · rintro rfl
    simp [onConnectionLost]

/-- Witness for C5 at error codes 8 and 0. -/
theorem connectionLostGuard_spec_witness :
    onConnectionLost initialHomeState 8
      = { initialHomeState with connectionStatus := "Lost Connection" } ∧
    onConnectionLost initialHomeState 0 = initialHomeState :=
  ⟨(connectionLostGuard_spec initialHomeState 8).1 (by decide),
   (connectionLostGuard_spec initialHomeState 0).2 rfl⟩

/-- C6: a message whose payload does not decode is dropped entirely —
no repository create call, no display update, and the connection status
and the throttle's last-forward marker are untouched (the whole screen
state is unchanged). -/
theorem decodeErrorIsolation_spec (decode : String → Option SensorData)
    (s : HomeState) (payload : String) (now : Int) (saveSucceeds : Bool)
    (h : decode payload = none) :
    onMessageArrived decode s payload now saveSucceeds = s := by
  simp [onMessageArrived, h]

/-- Witness for C6: a decoder rejecting every payload leaves the
initial state unchanged. -/
theorem decodeErrorIsolation_spec_witness :
    onMessageArrived (fun _ => none) initialHomeState "not json" 5 true
      = initialHomeState :=
  decodeErrorIsolation_spec (fun _ => none) initialHomeState "not json" 5 true
    rfl

/-- C9: `getTrend` returns `stable` whenever the previous value is
absent or equal to 0 (JavaScript truthiness treats the number 0 like an
absent value, whatever the current value is); otherwise it returns `up`
iff current > previous + 0.1, `down` iff current < previous − 0.1, and
`stable` otherwise. -/
theorem getTrend_spec (current : ℚ) (previous : Option ℚ) :
    (previous = none → getTrend current previous = Trend.stable) ∧
    (previous = some 0 → getTrend current previous = Trend.stable) ∧
    (∀ p : ℚ, previous = some p → p ≠ 0 →
      ((getTrend current previous = Trend.up ↔ current > p + 1/10) ∧
       (getTrend current previous = Trend.down ↔ current < p - 1/10) ∧
       (getTrend current previous = Trend.stable ↔
         (¬ current > p + 1/10 ∧ ¬ current < p - 1/10)))) := by
  refine ⟨?_, ?_, ?_⟩
  · rintro rfl
    rfl
  · rintro rfl
    simp [getTrend]
  · rintro p rfl hp
    simp only [getTrend, if_neg hp]
    by_cases h1 : current > p + 1/10
    · rw [if_pos h1]
      refine ⟨⟨fun _ => h1, fun _ => rfl⟩, ?_, ?_⟩
      · exact ⟨fun h => (nomatch h), fun hc => absurd hc (by linarith)⟩
      · exact ⟨fun h => (nomatch h), fun hc => absurd h1 hc.1⟩
    · rw [if_neg h1]
      by_cases h2 : current < p - 1/10
      · rw [if_pos h2]
        refine ⟨?_, ⟨fun _ => h2, fun _ => rfl⟩, ?_⟩
        · exact ⟨fun h => (nomatch h), fun hc => absurd hc h1⟩
        · exact ⟨fun h => (nomatch h), fun hc => absurd h2 hc.2⟩
      · rw [if_neg h2]
        refine ⟨?_, ?_, ⟨fun _ => ⟨h1, h2⟩, fun _ => rfl⟩⟩
        · exact ⟨fun h => (nomatch h), fun hc => absurd hc h1⟩
        · exact ⟨fun h => (nomatch h), fun hc => absurd hc h2⟩

/-- Witness for C9: a zero previous value forces `stable` even for a
large jump, and a genuine increase beyond 0.1 reports `up`. -/
theorem getTrend_spec_witness :
    getTrend 5 (some 0) = Trend.stable ∧ getTrend 2 (some 1) = Trend.up :=
  ⟨(getTrend_spec 5 (some 0)).2.1 rfl,
   ((getTrend_spec 2 (some 1)).2.2 1 rfl (by norm_num)).1.mpr (by norm_num)⟩

/-- C7: `loadMQTTConfig` is total (never raises) and returns the stored
configuration exactly when one is present (truthy) and parses;
otherwise — read error, absent key, empty string, or parse failure — it
returns exactly the built-in default. -/
theorem loadConfigFallback_spec (jsonParse : String → Option MQTTConfig) :
    (∀ e : Unit,
      loadMQTTConfig (Except.error e) jsonParse = DEFAULT_MQTT_CONFIG) ∧
    (loadMQTTConfig (Except.ok none) jsonParse = DEFAULT_MQTT_CONFIG) ∧
    (∀ stored : String, stored ≠ "" → jsonParse stored = none →
      loadMQTTConfig (Except.ok (some stored)) jsonParse
        = DEFAULT_MQTT_CONFIG) ∧
    (∀ (stored : String) (cfg : MQTTConfig), stored ≠ "" →
      jsonParse stored = some cfg →
      loadMQTTConfig (Except.ok (some stored)) jsonParse = cfg) ∧
    DEFAULT_MQTT_CONFIG =
      { broker := "broker.hivemq.com", port := 8000,
        topic := "semester_project/water_quality", useSSL := false } := by
  refine ⟨fun e => rfl, rfl, ?_, ?_, rfl⟩
  · intro stored hne hp
    simp [loadMQTTConfig, hne, hp]
  · intro stored cfg hne hp
    simp [loadMQTTConfig, hne, hp]

/-- Witness for C7: a failing read, an unparsable stored value, and a
parsable stored value, all with the demonstration codec. -/
theorem loadConfigFallback_spec_witness :
    loadMQTTConfig (Except.error ()) demoParse = DEFAULT_MQTT_CONFIG ∧
    loadMQTTConfig (Except.ok (some "garbage")) demoParse
      = DEFAULT_MQTT_CONFIG ∧
    loadMQTTConfig (Except.ok (some (demoStringify DEFAULT_MQTT_CONFIG)))
      demoParse = DEFAULT_MQTT_CONFIG :=
  ⟨(loadConfigFallback_spec demoParse).1 (),
   (loadConfigFallback_spec demoParse).2.2.1 "garbage" (by decide) (by decide),
   (loadConfigFallback_spec demoParse).2.2.2.1
     (demoStringify DEFAULT_MQTT_CONFIG) DEFAULT_MQTT_CONFIG (by decide)
     (by decide)⟩

/-- C8: if `saveMQTTConfig` succeeds (the underlying write does not
fail), a subsequent `loadMQTTConfig` with no intervening writes returns
the configuration that was saved, provided the JSON codec round-trips
that value — a property of the runtime's `JSON.stringify`/`JSON.parse`
pair on plain data objects. -/
theorem saveLoadRoundTrip_spec (jsonStringify : MQTTConfig → String)
    (jsonParse : String → Option MQTTConfig) (writeFails : Bool)
    (config : MQTTConfig) (stored : Option String)
    (hsave : saveMQTTConfig jsonStringify writeFails config
      = Except.ok stored)
    (hinv : jsonParse (jsonStringify config) = some config)
    (hne : jsonStringify config ≠ "") :
    loadMQTTConfig (Except.ok stored) jsonParse = config := by
  by_cases hw : writeFails
  · simp [saveMQTTConfig, hw] at hsave
  · simp [saveMQTTConfig, hw] at hsave
    subst hsave
    simp [loadMQTTConfig, hne, hinv]

/-- Witness for C8: the demonstration codec round-trips the default
configuration through storage. -/
theorem saveLoadRoundTrip_spec_witness :
    loadMQTTConfig (Except.ok (some (demoStringify DEFAULT_MQTT_CONFIG)))
      demoParse = DEFAULT_MQTT_CONFIG :=
  saveLoadRoundTrip_spec demoStringify demoParse false DEFAULT_MQTT_CONFIG
    (some (demoStringify DEFAULT_MQTT_CONFIG)) rfl (by decide) (by decide)

/-- C3 counterexample: a reading forwarded at t = 100000 whose create
call fails leaves the last-forward marker at its previous value (0), so
a reading arriving 1 ms later — well inside the 30000 ms interval after
the failed forward — is forwarded again, contrary to the claim that a
failed write still counts as an attempt. -/
theorem syncThrottleFailure_counterexample :
    (saveToFirebase initialHomeState demoReading1 100000 false).lastSaveTime
      = initialHomeState.lastSaveTime ∧
    (100001 : Int) - 100000 < FIREBASE_SAVE_INTERVAL ∧
    (saveToFirebase
        (saveToFirebase initialHomeState demoReading1 100000 false)
        demoReading2 100001 true).createCalls
      = [demoReading1, demoReading2] := by
  refine ⟨by decide, by decide, by decide⟩

/-- C3 amended: when the forward (create) call fails, the throttle's
last-forward marker is NOT advanced — only a successful forward updates
it — so a reading arriving after a failed forward is forwarded again as
soon as the interval has elapsed since the last successful forward,
even when it arrives within the interval after the failure. -/
theorem syncThrottleFailure_amended_spec (s : HomeState)
    (data d2 : SensorData) (now now2 : Int)
    (h : FIREBASE_SAVE_INTERVAL ≤ now - s.lastSaveTime)
    (h2 : FIREBASE_SAVE_INTERVAL ≤ now2 - s.lastSaveTime) :
    (saveToFirebase s data now false).lastSaveTime = s.lastSaveTime ∧
    (saveToFirebase s data now false).firebaseStatus = "Sync failed" ∧
    (saveToFirebase (saveToFirebase s data now false) d2 now2
        true).createCalls
      = s.createCalls ++ [data, d2] := by
  have hn : ¬ (now - s.lastSaveTime < FIREBASE_SAVE_INTERVAL) := by omega
  have hn2 : ¬ (now2 - s.lastSaveTime < FIREBASE_SAVE_INTERVAL) := by omega
  refine ⟨?_, ?_, ?_⟩ <;> simp [saveToFirebase, hn, hn2]

/-- Witness for C3's amended claim: after a failed forward at t = 50000
the marker still reads 0, and the reading at t = 50001 is forwarded. -/
theorem syncThrottleFailure_amended_spec_witness :
    (saveToFirebase initialHomeState demoReading1 50000 false).lastSaveTime
      = initialHomeState.lastSaveTime ∧
    (saveToFirebase
        (saveToFirebase initialHomeState demoReading1 50000 false)
        demoReading2 50001 true).createCalls
      = initialHomeState.createCalls ++ [demoReading1, demoReading2] := by
  have h := syncThrottleFailure_amended_spec initialHomeState demoReading1
    demoReading2 50000 50001 (by decide) (by decide)
  exact ⟨h.1, h.2.2⟩

/-- Decoders used by the throttle scenario: each of the three inbound
messages decodes to its own reading. -/
def scenarioRun (d1 d2 d3 : SensorData) (t0 : Int) : HomeState :=
  onMessageArrived (fun _ => some d3)
    (onMessageArrived (fun _ => some d2)
      (onMessageArrived (fun _ => some d1) initialHomeState "m1" t0 true)
      "m2" (t0 + 10000) true)
    "m3" (t0 + 31000) true

/-- C2: every decodable incoming reading updates the live display, and
it is forwarded to the repository's create operation exactly when at
least `FIREBASE_SAVE_INTERVAL` (30000 ms) has elapsed since the last
forward; in the scenario of three messages at `t0`, `t0 + 10000`,
`t0 + 31000` with no prior forward (and a wall clock at least 30 s past
the epoch), exactly the first and third readings are forwarded. -/
theorem syncThrottle_spec :
    (∀ (decode : String → Option SensorData) (s : HomeState)
       (payload : String) (data : SensorData) (now : Int) (ok : Bool),
       decode payload = some data →
         ((onMessageArrived decode s payload now ok).sensorData = data ∧
          (onMessageArrived decode s payload now ok).previousData
            = some s.sensorData ∧
          ((onMessageArrived decode s payload now ok).createCalls
              = s.createCalls ++ [data]
            ↔ FIREBASE_SAVE_INTERVAL ≤ now - s.lastSaveTime) ∧
          (now - s.lastSaveTime < FIREBASE_SAVE_INTERVAL →
            (onMessageArrived decode s payload now ok).createCalls
              = s.createCalls))) ∧
    (∀ (d1 d2 d3 : SensorData) (t0 : Int), 30000 ≤ t0 →
      (scenarioRun d1 d2 d3 t0).createCalls = [d1, d3]) := by
  constructor
  · intro decode s payload data now ok h
    by_cases hlt : now - s.lastSaveTime < FIREBASE_SAVE_INTERVAL
    · refine ⟨?_, ?_, ?_, fun _ => ?_⟩ <;>
        simp [onMessageArrived, h, saveToFirebase, hlt]
    · cases ok <;>
        (refine ⟨?_, ?_, ?_, fun hc => absurd hc hlt⟩ <;>
          simp [onMessageArrived, h, saveToFirebase, hlt]) <;>
        omega
  · intro d1 d2 d3 t0 ht
    have e1 : ¬ (t0 < (30000 : Int)) := by omega
    simp [scenarioRun, onMessageArrived, saveToFirebase, initialHomeState,
      FIREBASE_SAVE_INTERVAL, e1]

/-- Witness for C2: the scenario at `t0 = 30000`, and the per-message
characterisation at a concrete state and reading. -/
theorem syncThrottle_spec_witness :
    (scenarioRun demoReading1 demoReading2 demoReading1 30000).createCalls
      = [demoReading1, demoReading1] ∧
    (onMessageArrived (fun _ => some demoReading1) initialHomeState "m"
        40000 true).sensorData = demoReading1 :=
  ⟨syncThrottle_spec.2 demoReading1 demoReading2 demoReading1 30000
    (by decide),
   (syncThrottle_spec.1 (fun _ => some demoReading1) initialHomeState "m"
     demoReading1 40000 true rfl).1⟩

/-- A stopped (stale) manager ignores every event other than `start`. -/
theorem step_stopped (m : Manager) (e : MEvent) (hm : m.stopped = true)
    (he : e ≠ MEvent.start) : step m e = (m, []) := by
  simp [step, hm, he]

/-- A stopped (stale) manager ignores every event sequence without
`start`: the state never changes and no callback fires. -/
theorem runEvents_stopped (m : Manager) (hm : m.stopped = true) :
    ∀ evs : List MEvent, (∀ e ∈ evs, e ≠ MEvent.start) →
      runEvents m evs = (m, [])
  | [], _ => rfl
  | e :: es, h => by
    have hs : step m e = (m, []) := step_stopped m e hm (h e (by simp))
    have ih := runEvents_stopped m hm es (fun x hx => h x (by simp [hx]))
    simp [runEvents, hs, ih]

/-- C4: after `stopManager` the connection is `Disconnected` with no
pending reconnect timer, stopping again is a no-op, and no sequence of
non-`start` events — a late reconnect timer, an in-flight connect
callback, a stray message — changes the state or fires any callback; in
particular no later `Connecting` transition occurs for this instance. -/
theorem stopCancellation_spec (m : Manager) (evs : List MEvent)
    (h : ∀ e ∈ evs, e ≠ MEvent.start) :
    runEvents (stopManager m) evs = (stopManager m, []) ∧
    (stopManager m).conn = ConnState.disconnected ∧
    (stopManager m).pendingTimer = none ∧
    stopManager (stopManager m) = stopManager m :=
  ⟨runEvents_stopped (stopManager m) rfl evs h, rfl, rfl, rfl⟩

/-- Concrete manager mid-reconnect, used by the C4 witness. -/
def demoManager : Manager :=
  { conn := ConnState.reconnecting 3 8000, reconnectAttempts := 3,
    stopped := false, pendingTimer := some 8000 }

/-- Witness for C4: stopping while a reconnect is pending, then letting
the stale timer and assorted callbacks fire, changes nothing. -/
theorem stopCancellation_spec_witness :
    runEvents (stopManager demoManager)
      [MEvent.timerFired, MEvent.connectFailure, MEvent.connectSuccess,
       MEvent.messageArrived "x", MEvent.connectionLost 5]
      = (stopManager demoManager, []) ∧
    (stopManager demoManager).conn = ConnState.disconnected :=
  ⟨(stopCancellation_spec demoManager
      [MEvent.timerFired, MEvent.connectFailure, MEvent.connectSuccess,
       MEvent.messageArrived "x", MEvent.connectionLost 5]
      (by decide)).1,
   (stopCancellation_spec demoManager [] (by simp)).2.1⟩

/-- C1: in the run where every connection attempt fails, the delays
scheduled before retry attempts 1..10 are exactly [2000, 4000, 8000,
16000, 32000, 60000, 60000, 60000, 60000, 60000] ms; the backoff
formula is `min (2000 * 2 ^ (n − 1)) 60000` for every attempt `n`;
after the 10th retry fails the manager is in the `Failed` state with no
timer pending, and — until `start` is called again — every further
event leaves it unchanged and schedules nothing. -/
theorem connectionBackoff_spec :
    retryDelays (runEvents initialManager (failureEvents 9)).2
      = [2000, 4000, 8000, 16000, 32000, 60000, 60000, 60000, 60000,
         60000] ∧
    (∀ n : Nat, backoffDelay n = min (2000 * 2 ^ (n - 1)) 60000) ∧
    (runEvents initialManager (failureEvents 10)).1.conn
      = ConnState.failed ∧
    (runEvents initialManager (failureEvents 10)).1.pendingTimer
      = none ∧
    (∀ e : MEvent, e ≠ MEvent.start →
      step (runEvents initialManager (failureEvents 10)).1 e
        = ((runEvents initialManager (failureEvents 10)).1, [])) := by
  refine ⟨by decide, fun n => rfl, by decide, by decide, ?_⟩
  intro e he
  have hc : (runEvents initialManager (failureEvents 10)).1.conn
      = ConnState.failed := by decide
  have hs : (runEvents initialManager (failureEvents 10)).1.stopped
      = false := by decide
  simp [step, hc, hs, he]

/-- Witness for C1: the failed manager ignores a late timer, and the
6th delay is capped at 60000 ms. -/
theorem connectionBackoff_spec_witness :
    step (runEvents initialManager (failureEvents 10)).1 MEvent.timerFired
      = ((runEvents initialManager (failureEvents 10)).1, []) ∧
    backoffDelay 6 = 60000 := by
  refine ⟨connectionBackoff_spec.2.2.2.2 MEvent.timerFired (by decide), ?_⟩
  rw [connectionBackoff_spec.2.1 6]
  decide

/-- Evolution of the `min` component of the accumulator for one value. -/
def minStep (acc : Option ℚ) (v : ℚ) : Option ℚ :=
  match acc with
  | none => some v
  | some m => if v < m then some v else some m

/-- Evolution of the `max` component of the accumulator for one value. -/
def maxStep (acc : Option ℚ) (v : ℚ) : Option ℚ :=
  match acc with
  | none => some v
  | some m => if v > m then some v else some m

/-- The `min` component of the per-field fold is the fold of `minStep`. -/
theorem foldl_updField_min (l : List ℚ) :
    ∀ st : FieldStat, (l.foldl updField st).min = l.foldl minStep st.min := by
  induction l with
  | nil => intro st; rfl
  | cons v t ih =>
    intro st
    rw [List.foldl_cons, List.foldl_cons, ih]
    rfl

/-- The `max` component of the per-field fold is the fold of `maxStep`. -/
theorem foldl_updField_max (l : List ℚ) :
    ∀ st : FieldStat, (l.foldl updField st).max = l.foldl maxStep st.max := by
  induction l with
  | nil => intro st; rfl
  | cons v t ih =>
    intro st
    rw [List.foldl_cons, List.foldl_cons, ih]
    rfl

/-- The `total` component of the per-field fold accumulates the sum. -/
theorem foldl_updField_total (l : List ℚ) :
    ∀ st : FieldStat, (l.foldl updField st).total = st.total + l.sum := by
  induction l with
  | nil => intro st; simp
  | cons v t ih =>
    intro st
    rw [List.foldl_cons, ih]
    simp [updField]
    ring

/-- Folding `minStep` from a present value yields the least of the
start value and the list's members. -/
theorem foldl_minStep_spec (l : List ℚ) :
    ∀ a : ℚ, ∃ m : ℚ, l.foldl minStep (some a) = some m ∧
      (m = a ∨ m ∈ l) ∧ m ≤ a ∧ ∀ x ∈ l, m ≤ x := by
  induction l with
  | nil => exact fun a => ⟨a, rfl, Or.inl rfl, le_refl a, by simp⟩
  | cons v t ih =>
    intro a
    by_cases h : v < a
    · obtain ⟨m, hm, hmem, hle, hall⟩ := ih v
      refine ⟨m, ?_, ?_, hle.trans h.le, ?_⟩
      · rw [List.foldl_cons]
        simpa [minStep, h] using hm
      · rcases hmem with rfl | hmt
        · exact Or.inr (List.mem_cons_self _ _)
        · exact Or.inr (List.mem_cons_of_mem _ hmt)
      · intro x hx
        rcases List.mem_cons.mp hx with rfl | hxt
        · exact hle
        · exact hall x hxt
    · obtain ⟨m, hm, hmem, hle, hall⟩ := ih a
      refine ⟨m, ?_, ?_, hle, ?_⟩
      · rw [List.foldl_cons]
        simpa [minStep, h] using hm
      · rcases hmem with rfl | hmt
        · exact Or.inl rfl
        · exact Or.inr (List.mem_cons_of_mem _ hmt)
      · intro x hx
        rcases List.mem_cons.mp hx with rfl | hxt
        · exact hle.trans (not_lt.mp h)
        · exact hall x hxt

/-- Folding `maxStep` from a present value yields the greatest of the
start value and the list's members. -/
theorem foldl_maxStep_spec (l : List ℚ) :
    ∀ a : ℚ, ∃ m : ℚ, l.foldl maxStep (some a) = some m ∧
      (m = a ∨ m ∈ l) ∧ a ≤ m ∧ ∀ x ∈ l, x ≤ m := by
  induction l with
  | nil => exact fun a => ⟨a, rfl, Or.inl rfl, le_refl a, by simp⟩
  | cons v t ih =>
    intro a
    by_cases h : v > a
    · obtain ⟨m, hm, hmem, hle, hall⟩ := ih v
      refine ⟨m, ?_, ?_, h.le.trans hle, ?_⟩
      · rw [List.foldl_cons]
        simpa [maxStep, h] using hm
      · rcases hmem with rfl | hmt
        · exact Or.inr (List.mem_cons_self _ _)
        · exact Or.inr (List.mem_cons_of_mem _ hmt)
      · intro x hx
        rcases List.mem_cons.mp hx with rfl | hxt
        · exact hle
        · exact hall x hxt
    · obtain ⟨m, hm, hmem, hle, hall⟩ := ih a
      refine ⟨m, ?_, ?_, hle, ?_⟩
      · rw [List.foldl_cons]
        simpa [maxStep, h] using hm
      · rcases hmem with rfl | hmt
        · exact Or.inl rfl
        · exact Or.inr (List.mem_cons_of_mem _ hmt)
      · intro x hx
        rcases List.mem_cons.mp hx with rfl | hxt
        · exact (not_lt.mp h).trans hle
        · exact hall x hxt

/-- On a non-empty list, the `minStep` fold from the `Infinity`
sentinel computes the true minimum. -/
theorem foldl_minStep_none (l : List ℚ) (hl : l ≠ []) :
    ∃ m : ℚ, l.foldl minStep none = some m ∧ m ∈ l ∧ ∀ x ∈ l, m ≤ x := by
  cases l with
  | nil => exact absurd rfl hl
  | cons v t =>
    obtain ⟨m, hm, hmem, hle, hall⟩ := foldl_minStep_spec t v
    refine ⟨m, ?_, ?_, ?_⟩
    · rw [List.foldl_cons]
      exact hm
    · rcases hmem with rfl | hmt
      · exact List.mem_cons_self _ _
      · exact List.mem_cons_of_mem _ hmt
    · intro x hx
      rcases List.mem_cons.mp hx with rfl | hxt
      · exact hle
      · exact hall x hxt

/-- On a non-empty list, the `maxStep` fold from the `-Infinity`
sentinel computes the true maximum. -/
theorem foldl_maxStep_none (l : List ℚ) (hl : l ≠ []) :
    ∃ m : ℚ, l.foldl maxStep none = some m ∧ m ∈ l ∧ ∀ x ∈ l, x ≤ m := by
  cases l with
  | nil => exact absurd rfl hl
  | cons v t =>
    obtain ⟨m, hm, hmem, hle, hall⟩ := foldl_maxStep_spec t v
    refine ⟨m, ?_, ?_, ?_⟩
    · rw [List.foldl_cons]
      exact hm
    · rcases hmem with rfl | hmt
      · exact List.mem_cons_self _ _
      · exact List.mem_cons_of_mem _ hmt
    · intro x hx
      rcases List.mem_cons.mp hx with rfl | hxt
      · exact hle
      · exact hall x hxt

/-- The six-field fold projects, on each field, to the per-field fold
over the mapped values. -/
theorem foldl_updAllFields_proj (getF : DailyFieldStats → FieldStat)
    (getQ : SensorData → ℚ)
    (hcomm : ∀ (st : DailyFieldStats) (r : SensorData),
      getF (updAllFields st r) = updField (getF st) (getQ r)) :
    ∀ (l : List SensorData) (st : DailyFieldStats),
      getF (l.foldl updAllFields st) = (l.map getQ).foldl updField (getF st) := by
  intro l
  induction l with
  | nil => intro st; rfl
  | cons r t ih =>
    intro st
    rw [List.foldl_cons, List.map_cons, List.foldl_cons, ih, hcomm]

/-- The C10 per-field specification: the reported min and max are the
true minimum and maximum of the field over the readings, and the
reported avg is the arithmetic mean rounded to two decimals (half up). -/
def fieldSpec (st : FieldStat) (l : List ℚ) : Prop :=
  (∃ m, st.min = some m ∧ m ∈ l ∧ ∀ x ∈ l, m ≤ x) ∧
  (∃ M, st.max = some M ∧ M ∈ l ∧ ∀ x ∈ l, x ≤ M) ∧
  st.avg = roundTo2 (l.sum / (l.length : ℚ))

/-- A per-field fold from the initial accumulator over a non-empty list
of values, with the rounded average filled in, meets the per-field
specification. -/
theorem fieldSpec_of_fold (l : List ℚ) (n : Nat) (hl : l ≠ [])
    (hn : n = l.length) :
    fieldSpec (setAvg (l.foldl updField initFieldStat) n) l := by
  obtain ⟨m, hm, hmem, hall⟩ := foldl_minStep_none l hl
  obtain ⟨M, hM, hMmem, hMall⟩ := foldl_maxStep_none l hl
  refine ⟨⟨m, ?_, hmem, hall⟩, ⟨M, ?_, hMmem, hMall⟩, ?_⟩
  · rw [setAvg]
    show (l.foldl updField initFieldStat).min = some m
    rw [foldl_updField_min]
    exact hm
  · rw [setAvg]
    show (l.foldl updField initFieldStat).max = some M
    rw [foldl_updField_max]
    exact hM
  · rw [setAvg, hn]
    show roundTo2 ((l.foldl updField initFieldStat).total / (l.length : ℚ))
      = roundTo2 (l.sum / (l.length : ℚ))
    rw [foldl_updField_total]
    norm_num [initFieldStat]

/-- One field of `getDailyStats` meets the per-field specification. -/
theorem fieldSpec_getDailyStats_aux (readings : List SensorData)
    (getF : DailyFieldStats → FieldStat) (getQ : SensorData → ℚ)
    (hcomm : ∀ (st : DailyFieldStats) (r : SensorData),
      getF (updAllFields st r) = updField (getF st) (getQ r))
    (hinit : getF initDailyFieldStats = initFieldStat)
    (h : readings ≠ []) :
    fieldSpec
      (setAvg (getF (readings.foldl updAllFields initDailyFieldStats))
        readings.length)
      (readings.map getQ) := by
  rw [foldl_updAllFields_proj getF getQ hcomm, hinit]
  exact fieldSpec_of_fold _ _ (by simpa using h) (by simp)

/-- C10: `getDailyStats` returns `null` exactly when the last-24-hours
query is empty; otherwise, for each of the six sensor fields, the
reported min and max are the true minimum and maximum of the field over
those readings, the reported avg is the arithmetic mean rounded to two
decimal places, and `readingCount` is the number of readings. -/
theorem getDailyStats_spec (readings : List SensorData) :
    (getDailyStats readings = none ↔ readings = []) ∧
    (∀ res : DailyStatsResult, getDailyStats readings = some res →
      res.readingCount = readings.length ∧
      fieldSpec res.stats.temp (readings.map fun r => r.temp) ∧
      fieldSpec res.stats.humidity (readings.map fun r => r.humidity) ∧
      fieldSpec res.stats.ph (readings.map fun r => r.ph) ∧
      fieldSpec res.stats.nitrate (readings.map fun r => r.nitrate) ∧
      fieldSpec res.stats.turbidity (readings.map fun r => r.turbidity) ∧
      fieldSpec res.stats.level (readings.map fun r => r.level)) := by
  constructor
  · by_cases h : readings = []
    · subst h
      simp [getDailyStats]
    · have hne : readings.isEmpty = false := by
        simpa [List.isEmpty_iff] using h
      simp [getDailyStats, hne, h]
  · intro res hres
    have h : readings ≠ [] := by
      intro hnil
      subst hnil
      simp [getDailyStats] at hres
    have hne : readings.isEmpty = false := by
      simpa [List.isEmpty_iff] using h
    simp only [getDailyStats, hne, Bool.false_eq_true, if_false,
      Option.some.injEq] at hres
    subst hres
    refine ⟨rfl, ?_, ?_, ?_, ?_, ?_, ?_⟩
    · exact fieldSpec_getDailyStats_aux readings (fun d => d.temp)
        (fun r => r.temp) (fun st r => rfl) rfl h
    · exact fieldSpec_getDailyStats_aux readings (fun d => d.humidity)
        (fun r => r.humidity) (fun st r => rfl) rfl h
    · exact fieldSpec_getDailyStats_aux readings (fun d => d.ph)
        (fun r => r.ph) (fun st r => rfl) rfl h
    · exact fieldSpec_getDailyStats_aux readings (fun d => d.nitrate)
        (fun r => r.nitrate) (fun st r => rfl) rfl h
    · exact fieldSpec_getDailyStats_aux readings (fun d => d.turbidity)
        (fun r => r.turbidity) (fun st r => rfl) rfl h
    · exact fieldSpec_getDailyStats_aux readings (fun d => d.level)
        (fun r => r.level) (fun st r => rfl) rfl h

/-- Concrete reading list for the C10 witness. -/
def demoStatsReadings : List SensorData := [demoReading1, demoReading2]

/-- Witness for C10: the empty query yields `null`, and on two concrete
readings the reported count is 2 and the temperature field meets its
specification. -/
theorem getDailyStats_spec_witness :
    getDailyStats [] = none ∧
    ∃ res : DailyStatsResult, getDailyStats demoStatsReadings = some res ∧
      res.readingCount = 2 ∧
      fieldSpec res.stats.temp [demoReading1.temp, demoReading2.temp] := by
  refine ⟨(getDailyStats_spec []).1.mpr rfl, ?_⟩
  cases hcase : getDailyStats demoStatsReadings with
  | none =>
    exact absurd ((getDailyStats_spec demoStatsReadings).1.mp hcase)
      (by decide)
  | some res =>
    have hspec := (getDailyStats_spec demoStatsReadings).2 res hcase
    refine ⟨res, rfl, ?_, ?_⟩
    · rw [hspec.1]
      rfl
    · have := hspec.2.1
      simpa [demoStatsReadings] using this
